import Mathlib

/-!
Verification of the theme-synchronization client and small client-side
helpers of the laurin-build beverage-ordering app.

The JavaScript under `src/app/static/js/main/` and `src/unnamed/part_000`
is embedded shallowly: module-local mutable variables become fields of an
explicit state record, each network/DOM callback becomes a pure step
function from state and input to state plus an effect record, and the
browser side effects (calling `applyTheme`, `location.reload()`,
`location.replace(...)`) are recorded as boolean flags in that effect
record.

Conventions of the embedding:
* JS `null`/`undefined` for the string-valued globals `currentVersion`,
  `currentTheme` and the numeric global `window.__LAST_THEME_SET` is
  `Option.none`; a JS string value `s` is `some s`.  Strict comparison
  `!==` between such values is decidable inequality on `Option String`.
* Message fields that the server always sends as strings (`data.theme`)
  are plain `String`; the empty string plays the role of a falsy theme,
  matching `if(!theme) return;` in `applyTheme`.
* `Date.now()` is an explicit `now : Nat` parameter (milliseconds).
  JS `Date.now() - t < 500` on numbers is matched by truncated `Nat`
  subtraction: when `t > now` both give `true`.
-/

namespace LaurinBuild

/-- State of the theme client in `user_search.js` (theme.js section):
the module-local `currentVersion`, `currentTheme`, the `data-theme`
attribute that `applyTheme` writes on `document.body`, the SSE handler's
`initialized` flag, and the page-global `window.__LAST_THEME_SET`. -/
structure ThemeState where
  currentVersion : Option String
  currentTheme : Option String
  appliedTheme : Option String
  initialized : Bool
  lastThemeSet : Option Nat
deriving DecidableEq, Repr

/-- Effects a single callback run can produce: whether `applyTheme` was
invoked, whether `location.reload()` ran, whether `location.replace(...)`
(a navigation) ran. -/
structure Fx where
  applyCalled : Bool
  reload : Bool
  navigated : Bool
deriving DecidableEq, Repr

/-- No effect. -/
def noFx : Fx := ⟨false, false, false⟩

/-- State right after page load: all module locals are `null`,
the SSE handler has not seen a message, no local change recorded. -/
def pageLoadState : ThemeState :=
  { currentVersion := none, currentTheme := none, appliedTheme := none
    initialized := false, lastThemeSet := none }

/-- `applyTheme(theme)`: returns early on a falsy theme, otherwise sets
the `data-theme` root attribute (and the matching `theme-` class, which
always changes together with the attribute, so one field models both). -/
def applyTheme (theme : String) (st : ThemeState) : ThemeState :=
  if theme = "" then st else { st with appliedTheme := some theme }

/-- Module-local `hardReloadArmed` in theme.js; set `true` at load and
never reassigned anywhere in the sources. -/
def hardReloadArmed : Bool := true

/-- Body of a parsed `/api/get-theme` response: `{success, theme, version}`.
`version` is `Option String` because JSON `null` is representable and the
code compares it with `!==` against a possibly-`null` local. -/
structure PollMsg where
  success : Bool
  theme : String
  version : Option String
deriving DecidableEq, Repr

/-- Payload of a parsed SSE `theme` event: `{theme, version}`. -/
structure SSEMsg where
  theme : String
  version : Option String
deriving DecidableEq, Repr

/-- The `justChanged` test in the SSE handler:
`window.__LAST_THEME_SET && (Date.now() - window.__LAST_THEME_SET < 500)`.
An unset (or zero, hence falsy) timestamp gives `false`. -/
def graceJustChanged (lastSet : Option Nat) (now : Nat) : Bool :=
  match lastSet with
  | none => false
  | some t => t != 0 && now - t < 500

/-- Success-callback body of `fetchTheme` (the polling path) on a parsed
response, mirroring the branch structure of the source:
first-message branch on `currentVersion === null`, then version change
(reload guarded only by the constant `hardReloadArmed`; the grace window
is not consulted here), then theme-only change, else nothing. -/
def fetchThemeStep (st : ThemeState) (m : PollMsg) : ThemeState × Fx :=
  if !m.success then (st, noFx)
  else if st.currentVersion = none then
    (applyTheme m.theme
      { st with currentVersion := m.version, currentTheme := some m.theme },
     { applyCalled := true, reload := false, navigated := false })
  else if m.version ≠ st.currentVersion then
    (applyTheme m.theme
      { st with currentVersion := m.version, currentTheme := some m.theme },
     { applyCalled := true, reload := hardReloadArmed, navigated := false })
  else if some m.theme ≠ st.currentTheme then
    (applyTheme m.theme { st with currentTheme := some m.theme },
     { applyCalled := true, reload := false, navigated := false })
  else (st, noFx)

/-- Outcome of one `fetch('/api/get-theme')` round: a parsed body, or a
network/JSON failure that lands in `.catch(()=>{})`. -/
inductive FetchOutcome where
  | ok (m : PollMsg)
  | err
deriving DecidableEq, Repr

/-- One full polling tick including the error path: the `.catch(()=>{})`
swallows the failure and leaves every module variable untouched. -/
def fetchThemeRun (st : ThemeState) (r : FetchOutcome) : ThemeState × Fx :=
  match r with
  | .err => (st, noFx)
  | .ok m => fetchThemeStep st m

/-- SSE `theme`-event handler body, mirroring the source: `initialized`
first-message branch, then version change with the `justChanged` grace
test deciding the reload, then theme-only change, else nothing. -/
def sseThemeStep (st : ThemeState) (m : SSEMsg) (now : Nat) : ThemeState × Fx :=
  if !st.initialized then
    (applyTheme m.theme
      { st with currentVersion := m.version, currentTheme := some m.theme,
                initialized := true },
     { applyCalled := true, reload := false, navigated := false })
  else if m.version ≠ st.currentVersion then
    (applyTheme m.theme
      { st with currentVersion := m.version, currentTheme := some m.theme },
     { applyCalled := true, reload := !graceJustChanged st.lastThemeSet now,
       navigated := false })
  else if some m.theme ≠ st.currentTheme then
    (applyTheme m.theme { st with currentTheme := some m.theme },
     { applyCalled := true, reload := false, navigated := false })
  else (st, noFx)

/-- An SSE event delivery: a parseable payload, or one whose
`JSON.parse` throws (caught; only `console.warn`, no state change). -/
inductive SSEEvent where
  | ok (m : SSEMsg)
  | badPayload
deriving DecidableEq, Repr

/-- The SSE listener including its `try/catch`: a bad payload is
swallowed with a console warning and no state change. -/
def sseHandleEvent (st : ThemeState) (e : SSEEvent) (now : Nat) : ThemeState × Fx :=
  match e with
  | .badPayload => (st, noFx)
  | .ok m => sseThemeStep st m now

/-- `window.__setLocalTheme(theme, version)`: applies a truthy theme,
records a truthy version; a falsy version instead stamps
`Date.now().toString()` and navigates via `location.replace` for cache
busting. Note it does not touch `currentTheme`. -/
def setLocalTheme (st : ThemeState) (theme : String) (version : String)
    (now : Nat) : ThemeState × Fx :=
  let st1 := if theme = "" then st else applyTheme theme st
  if version = "" then
    ({ st1 with currentVersion := some (toString now) },
     { applyCalled := theme != "", reload := false, navigated := true })
  else
    ({ st1 with currentVersion := some version },
     { applyCalled := theme != "", reload := false, navigated := false })

/-- Parsed `/api/set-theme` response used by `theme_switcher.js`. -/
structure SetThemeResponse where
  success : Bool
  theme : String
  version : String
deriving DecidableEq, Repr

/-- The state-relevant tail of `selectTheme` in `theme_switcher.js` once
the JSON is in: on success it calls `__setLocalTheme(data.theme,
data.version)` and then records `window.__LAST_THEME_SET = Date.now()`;
on failure only a console warning happens. -/
def selectThemeApply (st : ThemeState) (data : SetThemeResponse)
    (now : Nat) : ThemeState × Fx :=
  if !data.success then (st, noFx)
  else
    let r := setLocalTheme st data.theme data.version now
    ({ r.1 with lastThemeSet := some now }, r.2)

/-- Reload rule stated by the spec claim, written from the claim's own
words (for comparison with the code): reload exactly when the version
changed and the client did not itself change the theme within the 500ms
grace window before the message. -/
def claimReloadRule (versionChanged : Bool) (lastSet : Option Nat)
    (now : Nat) : Bool :=
  versionChanged && !graceJustChanged lastSet now

/-- `POLL_INTERVAL` constant of theme.js: 4 seconds in milliseconds. -/
def POLL_INTERVAL : Nat := 4000

/-- What a polling schedule set up by `initPolling` looks like: one
immediate `fetchTheme(true)` call and a repeated timer. -/
structure PollingPlan where
  immediateFetch : Bool
  intervalMs : Nat
deriving DecidableEq, Repr

/-- `initPolling()`: `fetchTheme(true)` at once, then
`setInterval(fetchTheme, POLL_INTERVAL)`. -/
def initPolling : PollingPlan := { immediateFetch := true, intervalMs := POLL_INTERVAL }

/-- Result of running `initSSE()` under a given environment: whether the
SSE subscription is kept, whether `es.close()` ran, and which polling
schedule (if any) was installed. -/
structure InitOutcome where
  usedSSE : Bool
  esClosed : Bool
  pollingPlan : Option PollingPlan
deriving DecidableEq, Repr

/-- `initSSE()` control flow over the two failure modes the source
handles: the `EventSource` constructor throwing (caught, straight to
`initPolling()`), and the connection erroring later (`es.onerror`
closes the source and calls `initPolling()`). With neither failure the
SSE subscription stays up and no polling timer exists. -/
def initSSE (ctorThrows : Bool) (connErrors : Bool) : InitOutcome :=
  if ctorThrows then
    { usedSSE := false, esClosed := false, pollingPlan := some initPolling }
  else if connErrors then
    { usedSSE := false, esClosed := true, pollingPlan := some initPolling }
  else
    { usedSSE := true, esClosed := false, pollingPlan := none }

/-- `UserSearch.fuzzyMatch(text, pattern)`: the two-pointer scan advances
over `text` one character per loop iteration, consuming a character of
`pattern` on each match, and succeeds when the whole pattern was
consumed. The while loop advancing `textIdx` each iteration is exactly
structural recursion on the text (strings are taken as character lists). -/
def fuzzyMatch : List Char → List Char → Bool
  | _, [] => true
  | [], _ :: _ => false
  | t :: ts, p :: ps => if t = p then fuzzyMatch ts ps else fuzzyMatch ts (p :: ps)

/-- `Map.prototype.get`, on the association-list model of a JS `Map`
(insertion order kept, at most one entry per key). -/
def mapGet (k : String) : List (String × Int) → Option Int
  | [] => none
  | (k1, v1) :: rest => if k1 = k then some v1 else mapGet k rest

/-- `Map.prototype.set`: overwrite the entry for the key if present,
else append a new entry. -/
def mapSet (k : String) (v : Int) : List (String × Int) → List (String × Int)
  | [] => [(k, v)]
  | (k1, v1) :: rest =>
    if k1 = k then (k, v) :: rest else (k1, v1) :: mapSet k v rest

/-- `BeverageConsumption.updateQuantity(beverageId, action)` from
`src/unnamed/part_000`: read the current quantity (defaulting to 0 via
`|| 0`), add 1 on `increase`, subtract 1 on `decrease` only when
strictly positive, otherwise keep it, and store the result back. -/
def updateQuantity (order : List (String × Int)) (beverageId action : String) :
    List (String × Int) :=
  let currentQuantity := (mapGet beverageId order).getD 0
  let newQuantity :=
    if action = "increase" then currentQuantity + 1
    else if action = "decrease" && 0 < currentQuantity then currentQuantity - 1
    else currentQuantity
  mapSet beverageId newQuantity order

/-- A whole session of `updateQuantity` calls starting from the
constructor's `this.order = new Map()`. -/
def runUpdateQuantity (calls : List (String × String)) : List (String × Int) :=
  calls.foldl (fun order c => updateQuantity order c.1 c.2) []

/-- The character class `\d` of the PIN regex. -/
def isDigitChar (c : Char) : Bool := '0' ≤ c && c ≤ '9'

/-- Whitespace stripped by `String.prototype.trim` (the characters that
can occur in this app's input fields). -/
def isJsWhitespace (c : Char) : Bool :=
  c = ' ' || c = '\t' || c = '\n' || c = '\r'

/-- `String.prototype.trim`: drop whitespace from both ends. -/
def jsTrim (s : List Char) : List Char :=
  ((s.dropWhile isJsWhitespace).reverse.dropWhile isJsWhitespace).reverse

/-- `/^\d{4}$/.test(pin)`: the anchored regex matches exactly the
four-digit strings. -/
def regexTestFourDigits : List Char → Bool
  | [a, b, c, d] => isDigitChar a && isDigitChar b && isDigitChar c && isDigitChar d
  | _ => false

/-- What a PIN submit handler does before (or instead of) any awaiting:
show a local validation error, or proceed to the network request with
the trimmed PIN. -/
inductive PinAction where
  | showError (msg : String)
  | sendRequest (pin : List Char)
deriving DecidableEq, Repr

/-- The local-validation prefix shared verbatim by
`PinManagement.submitPin` (POST `/create_user_pin`) and
`PinAuth.submitPin` (POST `/verify_pin`): trim, reject empty, reject
anything that is not exactly four digits, otherwise fetch. -/
def submitPinValidate (input : List Char) : PinAction :=
  let pin := jsTrim input
  if pin = [] then .showError "Please enter a PIN"
  else if pin.length ≠ 4 || !regexTestFourDigits pin then
    .showError "PIN must be exactly 4 digits"
  else .sendRequest pin

/-- `PinManagement.submitPin` validation (PIN creation handler). -/
def pinManagementSubmitPin (input : List Char) : PinAction :=
  submitPinValidate input

/-- `PinAuth.submitPin` validation (PIN verification handler). -/
def pinAuthSubmitPin (input : List Char) : PinAction :=
  submitPinValidate input

/-- Whether a handler outcome is the network request. -/
def PinAction.isSend : PinAction → Bool
  | .sendRequest _ => true
  | .showError _ => false

/-- A concrete client state past its first message: theme "coffee" at
version "1", applied, no local change recorded. Used to instantiate the
universally quantified theorems below. -/
def coffeeV1State : ThemeState :=
  { currentVersion := some "1", currentTheme := some "coffee",
    appliedTheme := some "coffee", initialized := true, lastThemeSet := none }

/-- C4: The concrete three-step trace, run on both delivery paths from
the fresh page-load state (no local change is ever recorded, so each
message trivially arrives more than 500ms after any local change):
first message `{theme:"coffee", version:"1"}` applies "coffee" with no
reload, next `{theme:"winter", version:"2"}` applies "winter" and
reloads, and a repeated `{theme:"winter", version:"2"}` changes nothing,
applies nothing and does not reload. -/
theorem coffee_winter_trace :
    (let r1 := sseThemeStep pageLoadState ⟨"coffee", some "1"⟩ 1000
     let r2 := sseThemeStep r1.1 ⟨"winter", some "2"⟩ 2000
     let r3 := sseThemeStep r2.1 ⟨"winter", some "2"⟩ 3000
     r1.1.appliedTheme = some "coffee" ∧ r1.2.reload = false ∧
     r2.1.appliedTheme = some "winter" ∧ r2.2.reload = true ∧
     r3.1 = r2.1 ∧ r3.2 = noFx) ∧
    (let q1 := fetchThemeStep pageLoadState ⟨true, "coffee", some "1"⟩
     let q2 := fetchThemeStep q1.1 ⟨true, "winter", some "2"⟩
     let q3 := fetchThemeStep q2.1 ⟨true, "winter", some "2"⟩
     q1.1.appliedTheme = some "coffee" ∧ q1.2.reload = false ∧
     q2.1.appliedTheme = some "winter" ∧ q2.2.reload = true ∧
     q3.1 = q2.1 ∧ q3.2 = noFx) := by
  decide

/-- C5: `initSSE` keeps the SSE subscription when nothing fails; if the
`EventSource` constructor throws, or the connection errors (in which
case the source is first closed), it installs the polling fallback:
one immediate fetch plus a 4000ms (= 4s) interval. -/
theorem initSSE_fallback (ctorThrows connErrors : Bool) :
    initSSE false false =
      { usedSSE := true, esClosed := false, pollingPlan := none } ∧
    (initSSE true connErrors).pollingPlan =
      some { immediateFetch := true, intervalMs := 4000 } ∧
    (initSSE false true).esClosed = true ∧
    (initSSE false true).pollingPlan =
      some { immediateFetch := true, intervalMs := 4000 } ∧
    ((initSSE ctorThrows connErrors).pollingPlan.isSome = (ctorThrows || connErrors)) ∧
    POLL_INTERVAL = 4000 := by
  cases ctorThrows <;> cases connErrors <;> decide

/-- C6: a network or JSON failure on the polling path lands in
`.catch(()=>{})`, and an unparseable SSE payload lands in the handler's
`catch` (a console warning only): in both cases the client state is
exactly unchanged and no theme application, reload or navigation
happens; the schedule that triggers the next attempt is untouched. -/
theorem theme_errors_swallowed (st : ThemeState) (now : Nat) :
    fetchThemeRun st .err = (st, noFx) ∧
    sseHandleEvent st .badPayload now = (st, noFx) := by
  exact ⟨rfl, rfl⟩

/-- C2: the first message after page load (polling path: `currentVersion`
still `null` and a successful response; SSE path: `initialized` still
false), for any theme and any version value, records both, invokes
`applyTheme` (which sets the root attribute whenever the theme is
truthy), and never reloads. -/
theorem first_message_never_reloads (pst sst : ThemeState) (pm : PollMsg)
    (sm : SSEMsg) (now : Nat) (hp : pst.currentVersion = none)
    (hps : pm.success = true) (hs : sst.initialized = false) :
    ((fetchThemeStep pst pm).1.currentVersion = pm.version ∧
     (fetchThemeStep pst pm).1.currentTheme = some pm.theme ∧
     (fetchThemeStep pst pm).2.applyCalled = true ∧
     (fetchThemeStep pst pm).2.reload = false ∧
     (pm.theme ≠ "" → (fetchThemeStep pst pm).1.appliedTheme = some pm.theme)) ∧
    ((sseThemeStep sst sm now).1.currentVersion = sm.version ∧
     (sseThemeStep sst sm now).1.currentTheme = some sm.theme ∧
     (sseThemeStep sst sm now).2.applyCalled = true ∧
     (sseThemeStep sst sm now).2.reload = false ∧
     (sm.theme ≠ "" → (sseThemeStep sst sm now).1.appliedTheme = some sm.theme)) := by
  constructor
  · by_cases hth : pm.theme = "" <;> simp_all [fetchThemeStep, applyTheme]
  · by_cases hth : sm.theme = "" <;> simp_all [sseThemeStep, applyTheme]

/-- Witness for C2 at concrete inputs. -/
theorem first_message_never_reloads_witness :
    ((fetchThemeStep pageLoadState ⟨true, "coffee", some "1"⟩).1.currentVersion = some "1" ∧
     (fetchThemeStep pageLoadState ⟨true, "coffee", some "1"⟩).1.currentTheme = some "coffee" ∧
     (fetchThemeStep pageLoadState ⟨true, "coffee", some "1"⟩).2.applyCalled = true ∧
     (fetchThemeStep pageLoadState ⟨true, "coffee", some "1"⟩).2.reload = false ∧
     ("coffee" ≠ "" → (fetchThemeStep pageLoadState ⟨true, "coffee", some "1"⟩).1.appliedTheme = some "coffee")) ∧
    ((sseThemeStep pageLoadState ⟨"coffee", some "1"⟩ 7).1.currentVersion = some "1" ∧
     (sseThemeStep pageLoadState ⟨"coffee", some "1"⟩ 7).1.currentTheme = some "coffee" ∧
     (sseThemeStep pageLoadState ⟨"coffee", some "1"⟩ 7).2.applyCalled = true ∧
     (sseThemeStep pageLoadState ⟨"coffee", some "1"⟩ 7).2.reload = false ∧
     ("coffee" ≠ "" → (sseThemeStep pageLoadState ⟨"coffee", some "1"⟩ 7).1.appliedTheme = some "coffee")) :=
  first_message_never_reloads pageLoadState pageLoadState ⟨true, "coffee", some "1"⟩
    ⟨"coffee", some "1"⟩ 7 rfl rfl rfl

/-- C3: a non-first message whose version equals the recorded version
but whose (truthy) theme differs from the recorded theme updates the
recorded and applied theme on both paths and never reloads. -/
theorem theme_only_change_no_reload (pst sst : ThemeState) (pm : PollMsg)
    (sm : SSEMsg) (now : Nat)
    (hp0 : pst.currentVersion ≠ none) (hps : pm.success = true)
    (hpv : pm.version = pst.currentVersion)
    (hpt : some pm.theme ≠ pst.currentTheme) (hpt0 : pm.theme ≠ "")
    (hs : sst.initialized = true) (hsv : sm.version = sst.currentVersion)
    (hst : some sm.theme ≠ sst.currentTheme) (hst0 : sm.theme ≠ "") :
    ((fetchThemeStep pst pm).1.currentTheme = some pm.theme ∧
     (fetchThemeStep pst pm).1.appliedTheme = some pm.theme ∧
     (fetchThemeStep pst pm).2.reload = false) ∧
    ((sseThemeStep sst sm now).1.currentTheme = some sm.theme ∧
     (sseThemeStep sst sm now).1.appliedTheme = some sm.theme ∧
     (sseThemeStep sst sm now).2.reload = false) := by
  constructor
  · simp [fetchThemeStep, hp0, hps, hpv, hpt, applyTheme, hpt0]
  · simp [sseThemeStep, hs, hsv, hst, applyTheme, hst0]

/-- Witness for C3 at concrete inputs. -/
theorem theme_only_change_no_reload_witness :
    ((fetchThemeStep coffeeV1State ⟨true, "winter", some "1"⟩).1.currentTheme = some "winter" ∧
     (fetchThemeStep coffeeV1State ⟨true, "winter", some "1"⟩).1.appliedTheme = some "winter" ∧
     (fetchThemeStep coffeeV1State ⟨true, "winter", some "1"⟩).2.reload = false) ∧
    ((sseThemeStep coffeeV1State ⟨"winter", some "1"⟩ 9).1.currentTheme = some "winter" ∧
     (sseThemeStep coffeeV1State ⟨"winter", some "1"⟩ 9).1.appliedTheme = some "winter" ∧
     (sseThemeStep coffeeV1State ⟨"winter", some "1"⟩ 9).2.reload = false) :=
  theme_only_change_no_reload coffeeV1State coffeeV1State
    ⟨true, "winter", some "1"⟩ ⟨"winter", some "1"⟩ 9
    (by decide) rfl (by decide) (by decide) (by decide) rfl (by decide)
    (by decide) (by decide)

/-- C7: the admin `selectTheme` success path feeds the server-confirmed
theme and (truthy) version to `__setLocalTheme`, which applies the theme
to the page immediately with no reload and no navigation, and then
stamps `window.__LAST_THEME_SET` with the current time for the
grace-window check. -/
theorem local_setter_instant (st : ThemeState) (data : SetThemeResponse)
    (now : Nat) (hs : data.success = true) (ht : data.theme ≠ "")
    (hv : data.version ≠ "") :
    (selectThemeApply st data now).1.appliedTheme = some data.theme ∧
    (selectThemeApply st data now).1.currentVersion = some data.version ∧
    (selectThemeApply st data now).1.lastThemeSet = some now ∧
    (selectThemeApply st data now).2.applyCalled = true ∧
    (selectThemeApply st data now).2.reload = false ∧
    (selectThemeApply st data now).2.navigated = false := by
  simp [selectThemeApply, setLocalTheme, applyTheme, hs, ht, hv]

/-- Witness for C7 at concrete inputs. -/
theorem local_setter_instant_witness :
    (selectThemeApply pageLoadState ⟨true, "winter", "2"⟩ 42).1.appliedTheme = some "winter" ∧
    (selectThemeApply pageLoadState ⟨true, "winter", "2"⟩ 42).1.currentVersion = some "2" ∧
    (selectThemeApply pageLoadState ⟨true, "winter", "2"⟩ 42).1.lastThemeSet = some 42 ∧
    (selectThemeApply pageLoadState ⟨true, "winter", "2"⟩ 42).2.applyCalled = true ∧
    (selectThemeApply pageLoadState ⟨true, "winter", "2"⟩ 42).2.reload = false ∧
    (selectThemeApply pageLoadState ⟨true, "winter", "2"⟩ 42).2.navigated = false :=
  local_setter_instant pageLoadState ⟨true, "winter", "2"⟩ 42 rfl (by decide) (by decide)

/-- C1 counterexample: a polling-path message with a new version,
delivered 100ms after a recorded local theme change (timestamp 1000,
arrival 1100, inside the 500ms grace window), still reloads the page:
`fetchTheme` never consults `window.__LAST_THEME_SET`, while the
claimed rule says such a message must not reload. -/
theorem polling_ignores_grace_window :
    (fetchThemeStep
      { currentVersion := some "1", currentTheme := some "coffee",
        appliedTheme := some "coffee", initialized := false,
        lastThemeSet := some 1000 }
      ⟨true, "winter", some "2"⟩).2.reload = true ∧
    graceJustChanged (some 1000) 1100 = true ∧
    claimReloadRule true (some 1000) 1100 = false := by
  decide

/-- C1 amended: for messages after the first, the SSE path reloads iff
the version differs from the last recorded one and no local theme
change was recorded within the 500ms grace window; the polling path
reloads iff the response is successful and its version differs from the
last recorded one — the grace window is not consulted there. -/
theorem reload_conditions (sst pst : ThemeState) (sm : SSEMsg) (pm : PollMsg)
    (now : Nat) (hs : sst.initialized = true) (hp : pst.currentVersion ≠ none) :
    ((sseThemeStep sst sm now).2.reload = true ↔
      (sm.version ≠ sst.currentVersion ∧
       graceJustChanged sst.lastThemeSet now = false)) ∧
    ((fetchThemeStep pst pm).2.reload = true ↔
      (pm.success = true ∧ pm.version ≠ pst.currentVersion)) := by
  constructor
  · by_cases hv : sm.version = sst.currentVersion
    · simp only [sseThemeStep, hs, Bool.not_true, if_neg, hv]
      simp only [ne_eq, not_true_eq_false, false_and, iff_false]
      by_cases hth : some sm.theme = sst.currentTheme <;>
        simp [hth, applyTheme, noFx]
    · simp [sseThemeStep, hs, hv, applyTheme]
  · by_cases hsucc : pm.success = true
    · by_cases hv : pm.version = pst.currentVersion
      · simp only [fetchThemeStep, hsucc, Bool.not_true, if_neg, hp, hv]
        simp only [ne_eq, not_true_eq_false, and_false, iff_false]
        by_cases hth : some pm.theme = pst.currentTheme <;>
          simp [hth, hp, hsucc, applyTheme, noFx, fetchThemeStep, hv]
      · simp [fetchThemeStep, hsucc, hp, hv, applyTheme, hardReloadArmed]
    · simp [fetchThemeStep, hsucc, noFx]

/-- Witness for the amended C1 at concrete inputs. -/
theorem reload_conditions_witness :
    ((sseThemeStep coffeeV1State ⟨"winter", some "2"⟩ 9).2.reload = true ↔
      ((some "2" : Option String) ≠ some "1" ∧
       graceJustChanged none 9 = false)) ∧
    ((fetchThemeStep coffeeV1State ⟨true, "winter", some "2"⟩).2.reload = true ↔
      (true = true ∧ (some "2" : Option String) ≠ some "1")) :=
  reload_conditions coffeeV1State coffeeV1State ⟨"winter", some "2"⟩
    ⟨true, "winter", some "2"⟩ 9 rfl (by decide)

/-- Soundness of the greedy scan: a successful match exhibits the
pattern as a subsequence of the text. -/
theorem sublist_of_fuzzyMatch :
    ∀ (t p : List Char), fuzzyMatch t p = true → List.Sublist p t := by
  intro t
  induction t with
  | nil =>
    intro p h
    cases p with
    | nil => exact List.nil_sublist []
    | cons a as => simp [fuzzyMatch] at h
  | cons x xs ih =>
    intro p h
    cases p with
    | nil => exact List.nil_sublist _
    | cons a as =>
      by_cases hx : x = a
      · subst hx
        simp only [fuzzyMatch, if_pos rfl] at h
        exact (ih as h).cons₂ x
      · simp only [fuzzyMatch, if_neg hx] at h
        exact (ih (a :: as) h).cons x

/-- Completeness of the greedy scan: any subsequence is found. -/
theorem fuzzyMatch_of_sublist :
    ∀ (t p : List Char), List.Sublist p t → fuzzyMatch t p = true := by
  intro t
  induction t with
  | nil =>
    intro p h
    rw [List.sublist_nil] at h
    subst h
    rfl
  | cons x xs ih =>
    intro p h
    cases p with
    | nil => rfl
    | cons a as =>
      by_cases hx : x = a
      · subst hx
        have h2 : List.Sublist as xs := List.cons_sublist_cons.mp h
        simp [fuzzyMatch, ih as h2]
      · have h2 : List.Sublist (a :: as) xs := by
          cases h with
          | cons _ h3 => exact h3
          | cons₂ _ h3 => exact absurd rfl hx
        simp [fuzzyMatch, hx, ih (a :: as) h2]

/-- C8: `fuzzyMatch(text, pattern)` returns true exactly when the
pattern is a (not necessarily contiguous) in-order subsequence of the
text; hence the empty pattern always matches and a pattern longer than
the text never does. -/
theorem fuzzyMatch_iff_sublist (t p : List Char) :
    fuzzyMatch t p = true ↔ List.Sublist p t :=
  ⟨sublist_of_fuzzyMatch t p, fuzzyMatch_of_sublist t p⟩

/-- Reading back the key just written. -/
theorem mapGet_mapSet_same (k : String) (v : Int) :
    ∀ m : List (String × Int), mapGet k (mapSet k v m) = some v := by
  intro m
  induction m with
  | nil => simp [mapGet, mapSet]
  | cons e rest ih =>
    by_cases hk : e.1 = k
    · simp [mapGet, mapSet, hk]
    · simp [mapGet, mapSet, hk, ih]

/-- `mapSet` leaves other keys alone. -/
theorem mapGet_mapSet_other (k k1 : String) (v : Int) (hk : k1 ≠ k) :
    ∀ m : List (String × Int), mapGet k1 (mapSet k v m) = mapGet k1 m := by
  have hk2 : ¬(k = k1) := fun h => hk h.symm
  intro m
  induction m with
  | nil => simp [mapGet, mapSet, hk2]
  | cons e rest ih =>
    obtain ⟨ek, ev⟩ := e
    by_cases he : ek = k
    · subst he
      simp [mapGet, mapSet, hk2]
    · simp [mapGet, mapSet, he, ih]

/-- Every entry after a `mapSet` is the written pair or an old entry. -/
theorem mem_mapSet (k : String) (v : Int) :
    ∀ (m : List (String × Int)) (p : String × Int),
      p ∈ mapSet k v m → p = (k, v) ∨ p ∈ m := by
  intro m
  induction m with
  | nil => intro p hp; simp [mapSet] at hp; exact Or.inl hp
  | cons e rest ih =>
    intro p hp
    by_cases he : e.1 = k
    · simp [mapSet, he] at hp
      rcases hp with hp | hp
      · exact Or.inl hp
      · exact Or.inr (List.mem_cons_of_mem e hp)
    · simp [mapSet, he] at hp
      rcases hp with hp | hp
      · exact Or.inr (by simp [hp])
      · rcases ih p hp with h1 | h1
        · exact Or.inl h1
        · exact Or.inr (List.mem_cons_of_mem e h1)

/-- A successful lookup comes from an entry of the map. -/
theorem mapGet_mem (k : String) (v : Int) :
    ∀ m : List (String × Int), mapGet k m = some v → (k, v) ∈ m := by
  intro m
  induction m with
  | nil => intro h; simp [mapGet] at h
  | cons e rest ih =>
    obtain ⟨ek, ev⟩ := e
    intro h
    by_cases he : ek = k
    · subst he
      simp [mapGet] at h
      subst h
      exact List.mem_cons_self _ _
    · simp [mapGet, he] at h
      exact List.mem_cons_of_mem _ (ih h)

/-- One `updateQuantity` call keeps every stored quantity non-negative. -/
theorem updateQuantity_preserves_nonneg (m : List (String × Int))
    (hm : ∀ p ∈ m, 0 ≤ p.2) (beverageId action : String) :
    ∀ p ∈ updateQuantity m beverageId action, 0 ≤ p.2 := by
  intro p hp
  have hc : 0 ≤ (mapGet beverageId m).getD 0 := by
    cases hg : mapGet beverageId m with
    | none => simp
    | some v =>
      have := hm (beverageId, v) (mapGet_mem beverageId v m hg)
      simpa using this
  have hq : 0 ≤
      (if action = "increase" then (mapGet beverageId m).getD 0 + 1
       else if action = "decrease" && 0 < (mapGet beverageId m).getD 0 then
         (mapGet beverageId m).getD 0 - 1
       else (mapGet beverageId m).getD 0) := by
    split
    · omega
    · split
      · rename_i hdec
        simp only [Bool.and_eq_true, decide_eq_true_eq] at hdec
        omega
      · exact hc
  unfold updateQuantity at hp
  rcases mem_mapSet beverageId _ m p hp with h1 | h1
  · rw [h1]
    exact hq
  · exact hm p h1

/-- C9: starting from the constructor's empty order map, any sequence of
`updateQuantity` calls (arbitrary ids, arbitrary action strings) keeps
every stored quantity a non-negative integer; moreover one call with
`increase` adds exactly 1 to the id's quantity, one with `decrease`
subtracts 1 exactly when the quantity is strictly positive, and any
other action string stores the quantity back unchanged. -/
theorem updateQuantity_invariant (calls : List (String × String))
    (m : List (String × Int)) (beverageId action : String) :
    (∀ p ∈ runUpdateQuantity calls, 0 ≤ p.2) ∧
    ((mapGet beverageId (updateQuantity m beverageId "increase")).getD 0 =
      (mapGet beverageId m).getD 0 + 1) ∧
    ((mapGet beverageId (updateQuantity m beverageId "decrease")).getD 0 =
      (if 0 < (mapGet beverageId m).getD 0 then (mapGet beverageId m).getD 0 - 1
       else (mapGet beverageId m).getD 0)) ∧
    (action ≠ "increase" → action ≠ "decrease" →
      (mapGet beverageId (updateQuantity m beverageId action)).getD 0 =
        (mapGet beverageId m).getD 0) := by
  refine ⟨?_, ?_, ?_, ?_⟩
  · have main : ∀ (cs : List (String × String)) (m0 : List (String × Int)),
        (∀ p ∈ m0, 0 ≤ p.2) →
        ∀ p ∈ cs.foldl (fun order c => updateQuantity order c.1 c.2) m0, 0 ≤ p.2 := by
      intro cs
      induction cs with
      | nil => intro m0 hm0; simpa using hm0
      | cons c rest ih =>
        intro m0 hm0
        exact ih _ (updateQuantity_preserves_nonneg m0 hm0 c.1 c.2)
    intro p hp
    exact main calls [] (by simp) p hp
  · simp [updateQuantity, mapGet_mapSet_same]
  · simp only [updateQuantity, mapGet_mapSet_same]
    by_cases hpos : 0 < (mapGet beverageId m).getD 0 <;> simp [hpos]
  · intro h1 h2
    simp [updateQuantity, h1, h2, mapGet_mapSet_same]

/-- Witness for C9 at concrete inputs. -/
theorem updateQuantity_invariant_witness :
    (∀ p ∈ runUpdateQuantity [("cola", "increase"), ("cola", "decrease"), ("cola", "reset")],
      0 ≤ p.2) ∧
    ((mapGet "cola" (updateQuantity [("cola", (2 : Int))] "cola" "increase")).getD 0 =
      (mapGet "cola" [("cola", (2 : Int))]).getD 0 + 1) ∧
    ((mapGet "cola" (updateQuantity [("cola", (2 : Int))] "cola" "decrease")).getD 0 =
      (if 0 < (mapGet "cola" [("cola", (2 : Int))]).getD 0 then
        (mapGet "cola" [("cola", (2 : Int))]).getD 0 - 1
       else (mapGet "cola" [("cola", (2 : Int))]).getD 0)) ∧
    ("reset" ≠ "increase" → "reset" ≠ "decrease" →
      (mapGet "cola" (updateQuantity [("cola", (2 : Int))] "cola" "reset")).getD 0 =
        (mapGet "cola" [("cola", (2 : Int))]).getD 0) :=
  updateQuantity_invariant [("cola", "increase"), ("cola", "decrease"), ("cola", "reset")]
    [("cola", (2 : Int))] "cola" "reset"

/-- The anchored regex accepts exactly the length-4 all-digit strings. -/
theorem regexTestFourDigits_iff (t : List Char) :
    regexTestFourDigits t = true ↔
      (t.length = 4 ∧ ∀ c ∈ t, isDigitChar c = true) := by
  match t with
  | [] => simp [regexTestFourDigits]
  | [a] => simp [regexTestFourDigits]
  | [a, b] => simp [regexTestFourDigits]
  | [a, b, c] => simp [regexTestFourDigits]
  | [a, b, c, d] =>
    simp [regexTestFourDigits, and_assoc]
  | a :: b :: c :: d :: e :: rest =>
    simp [regexTestFourDigits]

/-- C10: both PIN submit handlers run the same local validation, and a
network request is issued exactly when the trimmed input has length 4
and consists of digits only; in every other case the handler stops at a
local validation error message and performs no request. -/
theorem submitPin_request_iff_four_digits (input : List Char) :
    (pinAuthSubmitPin input = pinManagementSubmitPin input) ∧
    ((pinManagementSubmitPin input).isSend = true ↔
      ((jsTrim input).length = 4 ∧ ∀ c ∈ jsTrim input, isDigitChar c = true)) ∧
    ((pinManagementSubmitPin input).isSend = false →
      ∃ msg, pinManagementSubmitPin input = .showError msg) := by
  refine ⟨rfl, ?_, ?_⟩
  · unfold pinManagementSubmitPin submitPinValidate
    by_cases h0 : jsTrim input = []
    · simp [h0, PinAction.isSend]
    · by_cases h4 : (jsTrim input).length = 4
      · by_cases hreg : regexTestFourDigits (jsTrim input) = true
        · simp [h0, h4, hreg, PinAction.isSend]
          exact (regexTestFourDigits_iff (jsTrim input)).mp hreg |>.2
        · have hna : ¬ ∀ c ∈ jsTrim input, isDigitChar c = true :=
            fun hall => hreg ((regexTestFourDigits_iff (jsTrim input)).mpr ⟨h4, hall⟩)
          simp [h0, h4, hreg, PinAction.isSend]
          simpa using hna
      · simp [h0, h4, PinAction.isSend]
  · intro hsend
    unfold pinManagementSubmitPin submitPinValidate at hsend ⊢
    by_cases h0 : jsTrim input = []
    · simp [h0]
    · by_cases h4 : (jsTrim input).length = 4
      · by_cases hreg : regexTestFourDigits (jsTrim input) = true
        · simp [h0, h4, hreg, PinAction.isSend] at hsend
        · simp [h0, h4, hreg]
      · simp [h0, h4]

/-- Witness for C10 at a concrete input (leading blank exercises trim). -/
theorem submitPin_request_iff_four_digits_witness :
    (pinAuthSubmitPin [' ', '1', '2', '3', '4'] =
      pinManagementSubmitPin [' ', '1', '2', '3', '4']) ∧
    ((pinManagementSubmitPin [' ', '1', '2', '3', '4']).isSend = true ↔
      ((jsTrim [' ', '1', '2', '3', '4']).length = 4 ∧
       ∀ c ∈ jsTrim [' ', '1', '2', '3', '4'], isDigitChar c = true)) ∧
    ((pinManagementSubmitPin [' ', '1', '2', '3', '4']).isSend = false →
      ∃ msg, pinManagementSubmitPin [' ', '1', '2', '3', '4'] = .showError msg) :=
  submitPin_request_iff_four_digits [' ', '1', '2', '3', '4']

end LaurinBuild
